/-
Verification of the order-placement core of the E-commerce-Simulation-System
repository: a shallow embedding of `models/product.py`, `models/cart.py`,
`models/order.py`, `Services/inventory.py`, `Services/payment_gateway.py`
and `Services/order_services.py`, together with proofs and refutations of
the specification's claims about reservation, compensation, commit and
cancellation.

Modelling conventions:
- Python `int` stock counters become `Int` (they are unbounded and signed).
- The inventory's `dict` of products becomes an association list of
  `Product` keyed by `product_id` (first match, as a dict has unique keys);
  in-place mutation of a product object becomes replacement of the entries
  with that id.
- Raising an exception becomes returning `Except`; the state at the raise
  point is the state the caller observes (Python mutates nothing after a
  raise).
- The payment gateway's random draw is injected as an explicit Boolean
  `approves`, and the generated payment-id string as a parameter, as the
  spec itself suggests for testability.
- `submit_order` additionally emits a list of `Event`s recording each
  reserve call, release call and payment attempt, so that ordering claims
  about the compensation path can be stated.
-/
import Mathlib

namespace ECommerce

/-! ## models/product.py -/

/-- `Product` from `models/product.py`, restricted to the fields the
order-placement core reads: the identity key and the stock counter.
(`name`, `price`, `description`, `category` are never consulted by
reserve/release/submit/cancel decisions.) -/
structure Product where
  product_id : Nat
  stock : Int
deriving Repr, DecidableEq

/-- `Product.deduct_stock`: deduct when `quantity <= stock`, reporting
success; otherwise leave the product unchanged and report failure. -/
def Product.deduct_stock (p : Product) (quantity : Int) : Product × Bool :=
  if quantity ≤ p.stock then ({ p with stock := p.stock - quantity }, true)
  else (p, false)

/-- `Product.restock`: unconditionally add `quantity` to the stock. -/
def Product.restock (p : Product) (quantity : Int) : Product :=
  { p with stock := p.stock + quantity }

/-- `Product.is_in_stock`: `quantity <= self.stock`. -/
def Product.is_in_stock (p : Product) (quantity : Int) : Bool :=
  quantity ≤ p.stock

/-! ## Services/inventory.py -/

/-- The inventory's `self.products : Dict[int, Product]`, as an association
list keyed by `product_id` (a Python dict has unique keys; lookups take the
first match). -/
abbrev Inventory : Type := List Product

/-- `self.products.get(product_id)`. -/
def Inventory.getProduct (inv : Inventory) (pid : Nat) : Option Product :=
  inv.find? (fun p => p.product_id == pid)

/-- In-place mutation of the product object held under `pid`: every entry
with that id is replaced by the updated object. -/
def Inventory.setProduct (inv : Inventory) (pid : Nat) (p : Product) : Inventory :=
  inv.map (fun q => if q.product_id == pid then p else q)

/-- The available stock the ledger reports for `pid`: the stock of the
product stored under that id, or `none` when the id is absent. -/
def Inventory.stockOf (inv : Inventory) (pid : Nat) : Option Int :=
  (inv.getProduct pid).map Product.stock

/-- `Inventory.reserve_stock`: raise `OutOfStockError` when the product is
absent or `is_in_stock` fails; otherwise `deduct_stock` and succeed.  The
raise happens before any mutation, so the error branch carries no new
state. -/
def Inventory.reserve_stock (inv : Inventory) (pid : Nat) (qty : Int) :
    Except Unit Inventory :=
  match inv.getProduct pid with
  | none => .error ()
  | some p =>
    if p.is_in_stock qty then
      .ok (inv.setProduct pid (p.deduct_stock qty).1)
    else
      .error ()

/-- `Inventory.release_stock`: restock when the product is present,
silently do nothing when it is absent.  Never fails. -/
def Inventory.release_stock (inv : Inventory) (pid : Nat) (qty : Int) : Inventory :=
  match inv.getProduct pid with
  | none => inv
  | some p => inv.setProduct pid (p.restock qty)

/-! ### Effect of the ledger operations on `stockOf` -/

/-- `find?` only depends on the predicate's values on the list. -/
theorem find?_congr_pred {α : Type} {p q : α → Bool} (l : List α)
    (h : ∀ a ∈ l, p a = q a) : l.find? p = l.find? q := by
  induction l with
  | nil => rfl
  | cons x xs ih =>
    have hx := h x (by simp)
    cases hq : q x with
    | true =>
      rw [List.find?_cons_of_pos _ (hx.trans hq), List.find?_cons_of_pos _ hq]
    | false =>
      rw [List.find?_cons_of_neg _ (by simp [hx, hq]),
        List.find?_cons_of_neg _ (by simp [hq])]
      exact ih fun a ha => h a (by simp [ha])

/-- The product stored under `pid` carries that id as its `product_id`. -/
theorem getProduct_some_id (inv : Inventory) (pid : Nat) (p : Product)
    (h : inv.getProduct pid = some p) : p.product_id = pid := by
  have h2 := List.find?_some h
  simpa using h2

theorem getProduct_setProduct_self (inv : Inventory) (pid : Nat) (p p₀ : Product)
    (h : inv.getProduct pid = some p₀) (hid : p.product_id = pid) :
    (inv.setProduct pid p).getProduct pid = some p := by
  unfold Inventory.getProduct Inventory.setProduct at *
  rw [List.find?_map]
  rw [find?_congr_pred inv (q := fun r => r.product_id == pid)]
  · rw [h]
    have hf := List.find?_some h
    have h0 : p₀.product_id = pid := by simpa using hf
    simp [h0, hid]
  · intro q _
    by_cases hq : q.product_id = pid
    · simp [Function.comp, hq, hid]
    · simp [Function.comp, hq]

theorem getProduct_setProduct_other (inv : Inventory) (pid pid' : Nat) (p : Product)
    (hne : pid' ≠ pid) (hid : p.product_id = pid) :
    (inv.setProduct pid p).getProduct pid' = inv.getProduct pid' := by
  unfold Inventory.getProduct Inventory.setProduct
  rw [List.find?_map]
  rw [find?_congr_pred inv (q := fun r => r.product_id == pid')]
  · cases hg : inv.find? (fun r => r.product_id == pid') with
    | none => rfl
    | some r =>
      have hf := List.find?_some hg
      have hr : r.product_id = pid' := by simpa using hf
      have hrp : (r.product_id == pid) = false := by
        simp [hr]
        exact hne
      simp only [Option.map_some']
      rw [if_neg (by simp [hrp] : ¬ (r.product_id == pid) = true)]
  · intro q _
    by_cases hq : q.product_id = pid
    · have h1 : (p.product_id == pid') = false := by
        simp [hid]
        exact fun hc => hne hc.symm
      have h2 : (q.product_id == pid') = false := by
        simp [hq]
        exact fun hc => hne hc.symm
      simp only [Function.comp_apply]
      rw [if_pos (by simp [hq] : (q.product_id == pid) = true), h1, h2]
    · simp [Function.comp, hq]

/-- Releasing on a present product adds `qty` to its reported stock. -/
theorem stockOf_release_self (inv : Inventory) (pid : Nat) (qty s : Int)
    (h : inv.stockOf pid = some s) :
    (inv.release_stock pid qty).stockOf pid = some (s + qty) := by
  unfold Inventory.stockOf at *
  unfold Inventory.release_stock
  cases hg : inv.getProduct pid with
  | none => simp [hg] at h
  | some p =>
    simp only [hg]
    rw [hg] at h
    simp only [Option.map_some', Option.some_inj] at h
    have hid : (p.restock qty).product_id = pid := by
      have h0 := getProduct_some_id inv pid p hg
      simp [Product.restock, h0]
    rw [getProduct_setProduct_self inv pid _ p hg hid]
    simp [Product.restock]
    omega

/-- Releasing on an absent product is a no-op. -/
theorem release_absent (inv : Inventory) (pid : Nat) (qty : Int)
    (h : inv.stockOf pid = none) :
    inv.release_stock pid qty = inv := by
  unfold Inventory.stockOf at h
  unfold Inventory.release_stock
  cases hg : inv.getProduct pid with
  | none => rfl
  | some p => simp [hg] at h

/-- Releasing `pid` does not change the reported stock of any other id. -/
theorem stockOf_release_other (inv : Inventory) (pid pid' : Nat) (qty : Int)
    (hne : pid' ≠ pid) :
    (inv.release_stock pid qty).stockOf pid' = inv.stockOf pid' := by
  unfold Inventory.stockOf
  unfold Inventory.release_stock
  cases hg : inv.getProduct pid with
  | none => rfl
  | some p =>
    have hid : (p.restock qty).product_id = pid := by
      have h0 := getProduct_some_id inv pid p hg
      simp [Product.restock, h0]
    rw [getProduct_setProduct_other inv pid pid' _ hne hid]

/-- A successful reservation deducts `qty` from the reported stock. -/
theorem reserve_ok_stockOf_self (inv inv' : Inventory) (pid : Nat) (qty s : Int)
    (h : inv.stockOf pid = some s)
    (hok : inv.reserve_stock pid qty = .ok inv') :
    inv'.stockOf pid = some (s - qty) := by
  unfold Inventory.stockOf at h
  unfold Inventory.reserve_stock at hok
  cases hg : inv.getProduct pid with
  | none => simp [hg] at hok
  | some p =>
    rw [hg] at h hok
    simp only [Option.map_some', Option.some_inj] at h
    by_cases hin : p.is_in_stock qty
    · simp only [if_pos hin] at hok
      injection hok with hok
      subst hok
      have hle : qty ≤ p.stock := by
        simpa [Product.is_in_stock, decide_eq_true_eq] using hin
      have hid : ((p.deduct_stock qty).1).product_id = pid := by
        have h0 := getProduct_some_id inv pid p hg
        simp [Product.deduct_stock, if_pos hle, h0]
      unfold Inventory.stockOf
      rw [getProduct_setProduct_self inv pid _ p hg hid]
      simp [Product.deduct_stock, if_pos hle]
      omega
    · simp [if_neg hin] at hok

/-- Reservation fails exactly when the product is absent or `qty` exceeds
the available stock. -/
theorem reserve_error_iff (inv : Inventory) (pid : Nat) (qty : Int) :
    inv.reserve_stock pid qty = .error () ↔
      (∀ s, inv.stockOf pid = some s → s < qty) := by
  unfold Inventory.reserve_stock Inventory.stockOf
  cases hg : inv.getProduct pid with
  | none => simp
  | some p =>
    simp only [Option.map_some']
    by_cases hin : p.is_in_stock qty
    · have hle : qty ≤ p.stock := by
        simpa [Product.is_in_stock, decide_eq_true_eq] using hin
      simp [if_pos hin]
      omega
    · have hlt : p.stock < qty := by
        simpa [Product.is_in_stock, decide_eq_true_eq, not_le] using hin
      simp [if_neg hin]
      omega

/-- A successful reservation leaves other ids' reported stock unchanged. -/
theorem reserve_ok_stockOf_other (inv inv' : Inventory) (pid pid' : Nat) (qty : Int)
    (hne : pid' ≠ pid)
    (hok : inv.reserve_stock pid qty = .ok inv') :
    inv'.stockOf pid' = inv.stockOf pid' := by
  unfold Inventory.reserve_stock at hok
  cases hg : inv.getProduct pid with
  | none => simp [hg] at hok
  | some p =>
    rw [hg] at hok
    by_cases hin : p.is_in_stock qty
    · simp only [if_pos hin] at hok
      injection hok with hok
      subst hok
      have hle : qty ≤ p.stock := by
        simpa [Product.is_in_stock, decide_eq_true_eq] using hin
      have hid : ((p.deduct_stock qty).1).product_id = pid := by
        have h0 := getProduct_some_id inv pid p hg
        simp [Product.deduct_stock, if_pos hle, h0]
      unfold Inventory.stockOf
      rw [getProduct_setProduct_other inv pid pid' _ hne hid]
    · simp [if_neg hin] at hok

/-! ## models/cart.py -/

/-- `Cart` from `models/cart.py`: the owning user and
`items : {product_id: (Product, quantity)}`, kept in insertion order as a
list of `(product_id, quantity)` pairs.  The `Product` object stored in a
line is never consulted by the checkout path (reservation resolves products
through the inventory by id), so it is dropped here. -/
structure Cart where
  user_id : Nat
  items : List (Nat × Int)
deriving Repr, DecidableEq

/-- `Cart.add_item`: increase the quantity if the product is already
present, deleting the entry when the combined quantity drops to zero or
below; insert a fresh entry only when the quantity is positive. -/
def Cart.add_item (c : Cart) (pid : Nat) (quantity : Int) : Cart :=
  match c.items.find? (fun l => l.1 == pid) with
  | some l₀ =>
    let new_qty := l₀.2 + quantity
    if new_qty ≤ 0 then
      { c with items := c.items.filter (fun l => !(l.1 == pid)) }
    else
      { c with items := c.items.map (fun l => if l.1 == pid then (pid, new_qty) else l) }
  | none =>
    if quantity > 0 then { c with items := c.items ++ [(pid, quantity)] }
    else c

/-! ## models/order.py -/

/-- `Order` from `models/order.py`, restricted to the fields the claims
read: identity, owner, item lines, status string and the dynamically
attached `payment_ref` (absent unless checkout succeeded, hence an
`Option`). -/
structure Order where
  order_id : String
  user_id : Nat
  items : List (Nat × Int)
  status : String
  payment_ref : Option String
deriving Repr, DecidableEq

/-- `Order.from_cart` with the default `status="Placed"`: copy the cart's
owner and items; no payment reference exists yet. -/
def Order.from_cart (order_id : String) (cart : Cart) : Order :=
  { order_id := order_id, user_id := cart.user_id, items := cart.items,
    status := "Placed", payment_ref := none }

/-- `Order.update_status`. -/
def Order.update_status (o : Order) (new_status : String) : Order :=
  { o with status := new_status }

/-! ## Services/payment_gateway.py -/

/-- `PaymentProcessor.validate_payment_info`: the required fields
`method`, `card_number`, `cvv` must all be present.  `payment_info` is
modelled as the list of field names present in the dictionary. -/
def validate_payment_info (payment_info : List String) : Bool :=
  ["method", "card_number", "cvv"].all (fun field => payment_info.contains field)

/-- `PaymentProcessor.process_payment`: raise `PaymentFailedError` when
validation fails; otherwise the simulated gateway draw (injected here as
`approves`, the result of `random.random() < success_rate`) decides between
returning the generated payment id and raising `PaymentFailedError`.  The
charged order is only logged, never consulted. -/
def process_payment (approves : Bool) (payment_info : List String)
    (payment_id : String) : Except Unit String :=
  if !validate_payment_info payment_info then .error ()
  else if approves then .ok payment_id
  else .error ()

/-! ## Services/order_services.py -/

/-- Observable ledger/gateway calls made during one `submit_order`
attempt, in program order. -/
inductive Event where
  | reserveOk (pid : Nat) (qty : Int)
  | reserveFail (pid : Nat) (qty : Int)
  | release (pid : Nat) (qty : Int)
  | paymentAttempt
deriving Repr, DecidableEq

/-- Result of the Step-1 loop of `submit_order`: the inventory after the
loop, the `reserved` list the code accumulated (in acquisition order), the
reserve calls made, and whether every line reserved. -/
structure ReserveOutcome where
  inv : Inventory
  reserved : List (Nat × Int)
  events : List Event
  ok : Bool

/-- Step 1 of `submit_order`: `for pid, (product, qty) in cart.items`,
reserve each line, appending it to `reserved`; an `OutOfStockError` aborts
the loop at the failing line. -/
def reserveLoop (inv : Inventory) : List (Nat × Int) → ReserveOutcome
  | [] => ⟨inv, [], [], true⟩
  | (pid, qty) :: rest =>
    match inv.reserve_stock pid qty with
    | .error _ => ⟨inv, [], [Event.reserveFail pid qty], false⟩
    | .ok inv₁ =>
      let r := reserveLoop inv₁ rest
      ⟨r.inv, (pid, qty) :: r.reserved, Event.reserveOk pid qty :: r.events, r.ok⟩

/-- A `for pid, qty in lines: release_stock(pid, qty)` loop (the rollback
handler of `submit_order` and the release loop of `cancel_order`),
together with the release calls it makes, in program order. -/
def releaseLoop (inv : Inventory) : List (Nat × Int) → Inventory × List Event
  | [] => (inv, [])
  | (pid, qty) :: rest =>
    let r := releaseLoop (inv.release_stock pid qty) rest
    (r.1, Event.release pid qty :: r.2)

/-- Which control-flow branch of `submit_order` produced the result:
success, the empty-cart early return, or the shared rollback handler
entered via `OutOfStockError` respectively `PaymentFailedError`. -/
inductive SubmitOutcome where
  | placed
  | emptyCart
  | outOfStock
  | paymentFailed
deriving Repr, DecidableEq

/-- Everything observable about one `submit_order` call: the Python return
value (`Order | None`), the branch taken, the final inventory, the user's
order history after the call, and the emitted ledger/gateway events. -/
structure SubmitResult where
  result : Option Order
  outcome : SubmitOutcome
  inv : Inventory
  order_history : List Order
  events : List Event
deriving Repr, DecidableEq

/-- `OrderServices.submit_order`: reject empty carts with `None`; reserve
every cart line; process payment; on success build the order via
`Order.from_cart`, attach the payment reference, overwrite the status with
`"Paid"`, append it to the user's history and return it; on
`OutOfStockError` or `PaymentFailedError` release every line in `reserved`
(in the order it was accumulated) and return `None`. -/
def submit_order (inv : Inventory) (user_id : Nat) (order_history : List Order)
    (cart : Cart) (payment_info : List String) (approves : Bool)
    (payment_id : String) : SubmitResult :=
  if cart.items.isEmpty then
    ⟨none, .emptyCart, inv, order_history, []⟩
  else
    let r := reserveLoop inv cart.items
    if r.ok then
      match process_payment approves payment_info payment_id with
      | .ok payment_ref =>
        let order_id := "ORD-" ++ toString user_id ++ "-"
          ++ toString (order_history.length + 1)
        let order := { Order.from_cart order_id cart with
          payment_ref := some payment_ref, status := "Paid" }
        ⟨some order, .placed, r.inv, order_history ++ [order],
          r.events ++ [Event.paymentAttempt]⟩
      | .error _ =>
        let rel := releaseLoop r.inv r.reserved
        ⟨none, .paymentFailed, rel.1, order_history,
          r.events ++ [Event.paymentAttempt] ++ rel.2⟩
    else
      let rel := releaseLoop r.inv r.reserved
      ⟨none, .outOfStock, rel.1, order_history, r.events ++ rel.2⟩

/-- Which control-flow branch of `cancel_order` produced the result (the
Python return value itself is only a `bool`). -/
inductive CancelOutcome where
  | success
  | orderNotFound
  | orderAlreadyCancelled
deriving Repr, DecidableEq

/-- Everything observable about one `cancel_order` call. -/
structure CancelResult where
  result : Bool
  outcome : CancelOutcome
  inv : Inventory
  order_history : List Order
deriving Repr, DecidableEq

/-- In-place mutation of the order object `next(...)` found: replace the
first entry with that id. -/
def updateFirst (oid : String) (o' : Order) : List Order → List Order
  | [] => []
  | o :: rest =>
    if o.order_id == oid then o' :: rest else o :: updateFirst oid o' rest

/-- `OrderServices.cancel_order`: look the order up in the given user's
`order_history` only; return `False` when absent or already `"Cancelled"`;
otherwise set the status to `"Cancelled"`, release every line of the order
back to the inventory and return `True`.  The refund step calls
`PaymentProcessor.refund_payment`, which only logs and returns `True`, so
it touches neither the ledger nor the order. -/
def cancel_order (inv : Inventory) (order_history : List Order)
    (order_id : String) : CancelResult :=
  match order_history.find? (fun o => o.order_id == order_id) with
  | none => ⟨false, .orderNotFound, inv, order_history⟩
  | some order =>
    if order.status == "Cancelled" then
      ⟨false, .orderAlreadyCancelled, inv, order_history⟩
    else
      let order' := order.update_status "Cancelled"
      ⟨true, .success, (releaseLoop inv order.items).1,
        updateFirst order_id order' order_history⟩

/-- An arbitrary interleaving of the two mutating ledger operations, for
stating the non-negative-stock invariant of the data model. -/
inductive StockOp where
  | reserve (pid : Nat) (qty : Int)
  | release (pid : Nat) (qty : Int)
deriving Repr, DecidableEq

/-- The quantity an operation carries. -/
def StockOp.qty : StockOp → Int
  | .reserve _ q => q
  | .release _ q => q

/-- Run one ledger operation; a failed reservation raises and therefore
leaves the ledger as it was. -/
def applyOp (inv : Inventory) : StockOp → Inventory
  | .reserve pid qty =>
    match inv.reserve_stock pid qty with
    | .ok inv' => inv'
    | .error _ => inv
  | .release pid qty => inv.release_stock pid qty

/-- Run a sequence of ledger operations. -/
def applyOps (inv : Inventory) (ops : List StockOp) : Inventory :=
  ops.foldl applyOp inv

/-! ## Compensation arithmetic -/

/-- Total quantity the lines carry for one product id. -/
def lineSum (pid : Nat) : List (Nat × Int) → Int
  | [] => 0
  | (p, q) :: rest => (if p == pid then q else 0) + lineSum pid rest

/-- One release, expressed uniformly on the reported stock. -/
theorem stockOf_release_eq (inv : Inventory) (pid : Nat) (qty : Int) :
    (inv.release_stock pid qty).stockOf pid
      = (inv.stockOf pid).map (fun s => s + qty) := by
  cases h : inv.stockOf pid with
  | none => rw [release_absent inv pid qty h]; rw [h]; rfl
  | some s => rw [stockOf_release_self inv pid qty s h]; rfl

/-- A release loop adds, per product id, the summed quantity of its lines. -/
theorem releaseLoop_stockOf (lines : List (Nat × Int)) (inv : Inventory) (pid : Nat) :
    ((releaseLoop inv lines).1).stockOf pid
      = (inv.stockOf pid).map (fun s => s + lineSum pid lines) := by
  induction lines generalizing inv with
  | nil =>
    show inv.stockOf pid = (inv.stockOf pid).map (fun s => s + lineSum pid [])
    cases inv.stockOf pid <;> simp [lineSum]
  | cons l rest ih =>
    obtain ⟨p, q⟩ := l
    show ((releaseLoop (inv.release_stock p q) rest).1).stockOf pid = _
    rw [ih (inv.release_stock p q)]
    by_cases hp : p = pid
    · subst hp
      rw [stockOf_release_eq]
      cases inv.stockOf p with
      | none => rfl
      | some s => simp [lineSum, add_assoc]
    · rw [stockOf_release_other inv p pid q (fun hc => hp hc.symm)]
      cases inv.stockOf pid with
      | none => rfl
      | some s => simp [lineSum, hp]

/-- A successful reservation presupposes a present product with enough
stock. -/
theorem reserve_ok_exists (inv inv' : Inventory) (pid : Nat) (qty : Int)
    (hok : inv.reserve_stock pid qty = .ok inv') :
    ∃ s, inv.stockOf pid = some s ∧ qty ≤ s := by
  unfold Inventory.reserve_stock at hok
  cases hg : inv.getProduct pid with
  | none => rw [hg] at hok; exact absurd hok (by simp)
  | some p =>
    rw [hg] at hok
    by_cases hin : p.is_in_stock qty
    · refine ⟨p.stock, ?_, ?_⟩
      · unfold Inventory.stockOf
        rw [hg]
        rfl
      · simpa [Product.is_in_stock, decide_eq_true_eq] using hin
    · simp [if_neg hin] at hok

/-- The reservation loop deducts, per product id, exactly the summed
quantity of the lines it managed to reserve. -/
theorem reserveLoop_stockOf (lines : List (Nat × Int)) (inv : Inventory) (pid : Nat) :
    ((reserveLoop inv lines).inv).stockOf pid
      = (inv.stockOf pid).map
          (fun s => s - lineSum pid (reserveLoop inv lines).reserved) := by
  induction lines generalizing inv with
  | nil =>
    show inv.stockOf pid = (inv.stockOf pid).map (fun s => s - lineSum pid [])
    cases inv.stockOf pid <;> simp [lineSum]
  | cons l rest ih =>
    obtain ⟨p, q⟩ := l
    cases hres : inv.reserve_stock p q with
    | error e =>
      show ((reserveLoop inv ((p, q) :: rest)).inv).stockOf pid = _
      simp only [reserveLoop, hres]
      cases inv.stockOf pid <;> simp [lineSum]
    | ok inv₁ =>
      simp only [reserveLoop, hres]
      rw [ih inv₁]
      by_cases hp : p = pid
      · subst hp
        obtain ⟨s, hs, _⟩ := reserve_ok_exists inv inv₁ p q hres
        rw [reserve_ok_stockOf_self inv inv₁ p q s hs hres, hs]
        simp [lineSum, sub_sub]
      · have hne : pid ≠ p := fun hc => hp hc.symm
        rw [reserve_ok_stockOf_other inv inv₁ p pid q hne hres]
        cases inv.stockOf pid with
        | none => rfl
        | some s => simp [lineSum, hp]

/-- Releasing exactly the reserved lines of a reservation attempt restores
every reported stock to its pre-attempt value. -/
theorem rollback_restores (inv : Inventory) (lines : List (Nat × Int)) (pid : Nat) :
    ((releaseLoop (reserveLoop inv lines).inv
        (reserveLoop inv lines).reserved).1).stockOf pid
      = inv.stockOf pid := by
  rw [releaseLoop_stockOf, reserveLoop_stockOf]
  cases inv.stockOf pid <;> simp

/-! ## Event-trace projections -/

/-- The release calls an event trace contains, in order. -/
def releasesOf : List Event → List (Nat × Int)
  | [] => []
  | Event.release p q :: rest => (p, q) :: releasesOf rest
  | _ :: rest => releasesOf rest

/-- The successful reserve calls an event trace contains, in order (the
lines acquired, in acquisition order). -/
def okReservesOf : List Event → List (Nat × Int)
  | [] => []
  | Event.reserveOk p q :: rest => (p, q) :: okReservesOf rest
  | _ :: rest => okReservesOf rest

theorem releasesOf_append (a b : List Event) :
    releasesOf (a ++ b) = releasesOf a ++ releasesOf b := by
  induction a with
  | nil => rfl
  | cons e rest ih => cases e <;> simp [releasesOf, ih]

theorem okReservesOf_append (a b : List Event) :
    okReservesOf (a ++ b) = okReservesOf a ++ okReservesOf b := by
  induction a with
  | nil => rfl
  | cons e rest ih => cases e <;> simp [okReservesOf, ih]

/-- The reservation loop emits no release calls. -/
theorem reserveLoop_events_releases (lines : List (Nat × Int)) (inv : Inventory) :
    releasesOf (reserveLoop inv lines).events = [] := by
  induction lines generalizing inv with
  | nil => rfl
  | cons l rest ih =>
    obtain ⟨p, q⟩ := l
    cases hres : inv.reserve_stock p q with
    | error e => simp [reserveLoop, hres, releasesOf]
    | ok inv₁ => simp [reserveLoop, hres, releasesOf, ih inv₁]

/-- The successful reserve calls the reservation loop emits are exactly the
`reserved` list it accumulates, in the same order. -/
theorem reserveLoop_events_okReserves (lines : List (Nat × Int)) (inv : Inventory) :
    okReservesOf (reserveLoop inv lines).events = (reserveLoop inv lines).reserved := by
  induction lines generalizing inv with
  | nil => rfl
  | cons l rest ih =>
    obtain ⟨p, q⟩ := l
    cases hres : inv.reserve_stock p q with
    | error e => simp [reserveLoop, hres, okReservesOf]
    | ok inv₁ => simp [reserveLoop, hres, okReservesOf, ih inv₁]

/-- The reservation loop never touches the payment gateway. -/
theorem reserveLoop_events_no_payment (lines : List (Nat × Int)) (inv : Inventory) :
    Event.paymentAttempt ∉ (reserveLoop inv lines).events := by
  induction lines generalizing inv with
  | nil => simp [reserveLoop]
  | cons l rest ih =>
    obtain ⟨p, q⟩ := l
    cases hres : inv.reserve_stock p q with
    | error e => simp [reserveLoop, hres]
    | ok inv₁ => simp [reserveLoop, hres]; exact ih inv₁

/-- The release loop emits exactly one release call per line, in the order
of its input. -/
theorem releaseLoop_events_releases (lines : List (Nat × Int)) (inv : Inventory) :
    releasesOf (releaseLoop inv lines).2 = lines := by
  induction lines generalizing inv with
  | nil => rfl
  | cons l rest ih =>
    obtain ⟨p, q⟩ := l
    simp [releaseLoop, releasesOf, ih]

/-- The release loop emits no reserve calls. -/
theorem releaseLoop_events_okReserves (lines : List (Nat × Int)) (inv : Inventory) :
    okReservesOf (releaseLoop inv lines).2 = [] := by
  induction lines generalizing inv with
  | nil => rfl
  | cons l rest ih =>
    obtain ⟨p, q⟩ := l
    simp [releaseLoop, okReservesOf, ih]

/-- The release loop never touches the payment gateway. -/
theorem releaseLoop_events_no_payment (lines : List (Nat × Int)) (inv : Inventory) :
    Event.paymentAttempt ∉ (releaseLoop inv lines).2 := by
  induction lines generalizing inv with
  | nil => simp [releaseLoop]
  | cons l rest ih =>
    obtain ⟨p, q⟩ := l
    simp [releaseLoop]
    exact ih (inv.release_stock p q)

/-! ## Order-history lookups -/

/-- After mutating the first order found under `oid`, the lookup under
`oid` returns the mutated order. -/
theorem find?_updateFirst_self (history : List Order) (oid : String) (ord ord' : Order)
    (hfind : history.find? (fun o => o.order_id == oid) = some ord)
    (hid : ord'.order_id = ord.order_id) :
    (updateFirst oid ord' history).find? (fun o => o.order_id == oid) = some ord' := by
  have hoid : ord.order_id = oid := by
    have h2 := List.find?_some hfind
    simpa using h2
  induction history with
  | nil => simp at hfind
  | cons o rest ih =>
    cases hb : (o.order_id == oid) with
    | true =>
      simp only [updateFirst, hb, if_true]
      rw [List.find?_cons_of_pos _ (by simp [hid, hoid])]
    | false =>
      have hfind' : rest.find? (fun o => o.order_id == oid) = some ord := by
        rw [List.find?_cons_of_neg _ (by simp [hb])] at hfind
        exact hfind
      simp only [updateFirst, hb]
      rw [if_neg (by simp), List.find?_cons_of_neg _ (by simp [hb])]
      exact ih hfind'

/-! ## The non-negative stock invariant -/

/-- One ledger operation with a positive quantity preserves
non-negativity of every stored stock. -/
theorem applyOp_nonneg (inv : Inventory) (op : StockOp)
    (h0 : ∀ p ∈ inv, 0 ≤ p.stock) (hq : 0 < op.qty) :
    ∀ p ∈ applyOp inv op, 0 ≤ p.stock := by
  cases op with
  | reserve pid qty =>
    cases hres : inv.reserve_stock pid qty with
    | error e =>
      simpa [applyOp, hres] using h0
    | ok inv' =>
      have hres' := hres
      unfold Inventory.reserve_stock at hres'
      cases hg : inv.getProduct pid with
      | none => rw [hg] at hres'; simp at hres'
      | some p =>
        rw [hg] at hres'
        by_cases hin : p.is_in_stock qty
        · simp only [if_pos hin] at hres'
          injection hres' with hres'
          have hle : qty ≤ p.stock := by
            simpa [Product.is_in_stock, decide_eq_true_eq] using hin
          have hp : 0 ≤ p.stock := h0 p (List.mem_of_find?_eq_some hg)
          simp only [applyOp, hres]
          rw [← hres']
          intro q' hq'
          obtain ⟨q₀, hq₀, hmap⟩ := List.mem_map.mp hq'
          by_cases hc : q₀.product_id = pid
          · rw [← hmap]
            simp [hc, Product.deduct_stock, if_pos hle]
            omega
          · rw [← hmap]
            simp only [if_neg (by simp [hc] : ¬ (q₀.product_id == pid) = true)]
            exact h0 q₀ hq₀
        · simp [if_neg hin] at hres'
  | release pid qty =>
    simp only [applyOp, StockOp.qty] at *
    unfold Inventory.release_stock
    cases hg : inv.getProduct pid with
    | none => exact h0
    | some p =>
      intro q' hq'
      obtain ⟨q₀, hq₀, hmap⟩ := List.mem_map.mp hq'
      have hp : 0 ≤ p.stock := h0 p (List.mem_of_find?_eq_some hg)
      by_cases hc : q₀.product_id = pid
      · rw [← hmap]
        simp [hc, Product.restock]
        omega
      · rw [← hmap]
        simp only [if_neg (by simp [hc] : ¬ (q₀.product_id == pid) = true)]
        exact h0 q₀ hq₀

/-- A whole sequence of positive-quantity ledger operations preserves
non-negativity of every stored stock. -/
theorem applyOps_nonneg (ops : List StockOp) (inv : Inventory)
    (h0 : ∀ p ∈ inv, 0 ≤ p.stock) (hq : ∀ op ∈ ops, 0 < op.qty) :
    ∀ p ∈ applyOps inv ops, 0 ≤ p.stock := by
  induction ops generalizing inv with
  | nil => simpa [applyOps] using h0
  | cons op rest ih =>
    show ∀ p ∈ applyOps (applyOp inv op) rest, 0 ≤ p.stock
    exact ih (applyOp inv op)
      (applyOp_nonneg inv op h0 (hq op (by simp)))
      (fun o ho => hq o (by simp [ho]))

/-! ## Claim theorems -/

/-- C2: for every product present in the inventory and every quantity
`qty`, `reserve_stock` succeeds and deducts `qty` from that item's
available stock iff `qty ≤ available` (other items untouched); when
`available < qty` it fails with `OutOfStock` — and, the raise happening
before any mutation, the caller's inventory is unchanged. -/
theorem reserve_stock_contract (inv : Inventory) (pid : Nat) (qty s : Int)
    (h : inv.stockOf pid = some s) :
    (qty ≤ s → ∃ inv', inv.reserve_stock pid qty = .ok inv'
        ∧ inv'.stockOf pid = some (s - qty)
        ∧ ∀ pid', pid' ≠ pid → inv'.stockOf pid' = inv.stockOf pid')
    ∧ (s < qty → inv.reserve_stock pid qty = .error ())
    ∧ (∀ inv', inv.reserve_stock pid qty = .ok inv' → qty ≤ s) := by
  refine ⟨?_, ?_, ?_⟩
  · intro hle
    have hg2 : ∃ p, inv.getProduct pid = some p ∧ p.stock = s := by
      unfold Inventory.stockOf at h
      cases hg : inv.getProduct pid with
      | none => rw [hg] at h; simp at h
      | some p =>
        rw [hg] at h
        exact ⟨p, rfl, by simpa using h⟩
    obtain ⟨p, hg, hs⟩ := hg2
    have hin : p.is_in_stock qty = true := by
      simp only [Product.is_in_stock, decide_eq_true_eq]
      omega
    have hok : inv.reserve_stock pid qty
        = .ok (inv.setProduct pid (p.deduct_stock qty).1) := by
      unfold Inventory.reserve_stock
      rw [hg]
      simp only [if_pos hin]
    exact ⟨_, hok, reserve_ok_stockOf_self inv _ pid qty s h hok,
      fun pid' hne => reserve_ok_stockOf_other inv _ pid pid' qty hne hok⟩
  · intro hlt
    rw [reserve_error_iff]
    intro s' hs'
    rw [h] at hs'
    injection hs' with hs'
    omega
  · intro inv' hok
    obtain ⟨s', hs', hle⟩ := reserve_ok_exists inv inv' pid qty hok
    rw [h] at hs'
    injection hs' with hs'
    omega

/-- Witness for C2 at inventory `[⟨1, 5⟩]`, reserving 3 of product 1. -/
theorem reserve_stock_contract_witness :
    ((3 : Int) ≤ 5 → ∃ inv', Inventory.reserve_stock [⟨1, 5⟩] 1 3 = .ok inv'
        ∧ inv'.stockOf 1 = some (5 - 3)
        ∧ ∀ pid', pid' ≠ 1 → inv'.stockOf pid' = Inventory.stockOf [⟨1, 5⟩] pid')
    ∧ ((5 : Int) < 3 → Inventory.reserve_stock [⟨1, 5⟩] 1 3 = .error ())
    ∧ (∀ inv', Inventory.reserve_stock [⟨1, 5⟩] 1 3 = .ok inv' → (3 : Int) ≤ 5) :=
  reserve_stock_contract [⟨1, 5⟩] 1 3 5 rfl

/-- C8 is refuted as universally stated: releasing an identity that is not
in the inventory is a silent no-op — nothing is added anywhere. -/
theorem release_stock_totality_counterexample :
    Inventory.release_stock [⟨2, 5⟩] 1 4 = [⟨2, 5⟩]
    ∧ Inventory.stockOf (Inventory.release_stock [⟨2, 5⟩] 1 4) 1 = none := by
  exact ⟨rfl, rfl⟩

/-- C8 amended: `release_stock` never fails; for an item present in the
inventory it adds `qty` back to that item's stock (other items untouched),
while for an absent identity it leaves the inventory unchanged. -/
theorem release_stock_contract (inv : Inventory) (pid : Nat) (qty s : Int) :
    (inv.stockOf pid = some s →
      (inv.release_stock pid qty).stockOf pid = some (s + qty)
      ∧ ∀ pid', pid' ≠ pid →
          (inv.release_stock pid qty).stockOf pid' = inv.stockOf pid')
    ∧ (inv.stockOf pid = none → inv.release_stock pid qty = inv) :=
  ⟨fun h => ⟨stockOf_release_self inv pid qty s h,
      fun pid' hne => stockOf_release_other inv pid pid' qty hne⟩,
    fun h => release_absent inv pid qty h⟩

/-- Witness for C8 amended: a present item (id 1) and an absent one. -/
theorem release_stock_contract_witness :
    (Inventory.release_stock [⟨1, 5⟩] 1 3).stockOf 1 = some (5 + 3)
    ∧ Inventory.release_stock ([] : Inventory) 2 3 = [] :=
  ⟨((release_stock_contract [⟨1, 5⟩] 1 3 5).1 rfl).1,
    (release_stock_contract ([] : Inventory) 2 3 0).2 rfl⟩

/-- C9: starting from an inventory whose stocks are all non-negative,
any sequence of `reserve_stock`/`release_stock` operations with positive
quantities keeps every stored stock non-negative. -/
theorem stock_never_negative (inv : Inventory) (ops : List StockOp)
    (h0 : ∀ p ∈ inv, 0 ≤ p.stock)
    (hq : ∀ op ∈ ops, 0 < op.qty) :
    ∀ p ∈ applyOps inv ops, 0 ≤ p.stock :=
  applyOps_nonneg ops inv h0 hq

/-- Witness for C9: a short operation sequence with a failing
over-reservation in the middle. -/
theorem stock_never_negative_witness :
    (∀ p ∈ ([⟨1, 2⟩] : Inventory), 0 ≤ p.stock)
    ∧ (∀ op ∈ [StockOp.reserve 1 1, StockOp.reserve 1 5, StockOp.release 1 3],
        0 < op.qty)
    ∧ (∀ p ∈ applyOps [⟨1, 2⟩]
          [StockOp.reserve 1 1, StockOp.reserve 1 5, StockOp.release 1 3],
        0 ≤ p.stock) :=
  ⟨by decide, by decide,
    stock_never_negative [⟨1, 2⟩]
      [StockOp.reserve 1 1, StockOp.reserve 1 5, StockOp.release 1 3]
      (by decide) (by decide)⟩

/-- C10: `cancel_order` searches only the calling user's own history, so an
order identity placed by a different user (here: present in `histB`) is
reported not-found, and neither the inventory nor the caller's history
changes.  (`histB` itself is untouched by construction: `cancel_order`
never receives it.) -/
theorem cancel_order_scoped_to_user (inv : Inventory) (histA histB : List Order)
    (oid : String) (ord : Order)
    (_hB : ord ∈ histB) (_hBid : ord.order_id = oid)
    (hA : ∀ o ∈ histA, o.order_id ≠ oid) :
    (cancel_order inv histA oid).outcome = .orderNotFound
    ∧ (cancel_order inv histA oid).result = false
    ∧ (cancel_order inv histA oid).inv = inv
    ∧ (cancel_order inv histA oid).order_history = histA := by
  have hfind : histA.find? (fun o => o.order_id == oid) = none := by
    rw [List.find?_eq_none]
    intro o ho
    simp only [ne_eq, beq_iff_eq]
    exact hA o ho
  unfold cancel_order
  rw [hfind]
  exact ⟨rfl, rfl, rfl, rfl⟩

/-- Witness for C10: user A holds order `ORD-1-1`, user B holds
`ORD-2-1`; user A cancelling `ORD-2-1` is a reported no-op. -/
theorem cancel_order_scoped_to_user_witness :
    (cancel_order [⟨1, 5⟩] [⟨"ORD-1-1", 1, [(1, 2)], "Paid", some "PAY-1"⟩]
        "ORD-2-1").outcome = .orderNotFound
    ∧ (cancel_order [⟨1, 5⟩] [⟨"ORD-1-1", 1, [(1, 2)], "Paid", some "PAY-1"⟩]
        "ORD-2-1").result = false
    ∧ (cancel_order [⟨1, 5⟩] [⟨"ORD-1-1", 1, [(1, 2)], "Paid", some "PAY-1"⟩]
        "ORD-2-1").inv = [⟨1, 5⟩]
    ∧ (cancel_order [⟨1, 5⟩] [⟨"ORD-1-1", 1, [(1, 2)], "Paid", some "PAY-1"⟩]
        "ORD-2-1").order_history
        = [⟨"ORD-1-1", 1, [(1, 2)], "Paid", some "PAY-1"⟩] :=
  cancel_order_scoped_to_user [⟨1, 5⟩]
    [⟨"ORD-1-1", 1, [(1, 2)], "Paid", some "PAY-1"⟩]
    [⟨"ORD-2-1", 2, [(2, 1)], "Paid", some "PAY-2"⟩]
    "ORD-2-1" ⟨"ORD-2-1", 2, [(2, 1)], "Paid", some "PAY-2"⟩
    (by decide) (by decide) (by decide)

/-- C5: cancelling twice on the same order identity succeeds the first
time, fails with the already-cancelled outcome the second time, and the
second call changes nothing — across both calls each line of the order is
released exactly once (the reported stock gains exactly `lineSum` of the
order's lines). -/
theorem cancel_twice_idempotent (inv : Inventory) (history : List Order)
    (oid : String) (ord : Order) (pid : Nat)
    (hfind : history.find? (fun o => o.order_id == oid) = some ord)
    (hstatus : ord.status ≠ "Cancelled") :
    (cancel_order inv history oid).result = true
    ∧ (cancel_order inv history oid).outcome = .success
    ∧ (cancel_order (cancel_order inv history oid).inv
        (cancel_order inv history oid).order_history oid).result = false
    ∧ (cancel_order (cancel_order inv history oid).inv
        (cancel_order inv history oid).order_history oid).outcome
        = .orderAlreadyCancelled
    ∧ (cancel_order (cancel_order inv history oid).inv
        (cancel_order inv history oid).order_history oid).inv
        = (cancel_order inv history oid).inv
    ∧ (cancel_order (cancel_order inv history oid).inv
        (cancel_order inv history oid).order_history oid).order_history
        = (cancel_order inv history oid).order_history
    ∧ (cancel_order inv history oid).inv.stockOf pid
        = (inv.stockOf pid).map (fun s => s + lineSum pid ord.items) := by
  have hsb : (ord.status == "Cancelled") = false := by simp [hstatus]
  have h1 : cancel_order inv history oid
      = ⟨true, .success, (releaseLoop inv ord.items).1,
          updateFirst oid (ord.update_status "Cancelled") history⟩ := by
    unfold cancel_order
    rw [hfind]
    simp [hsb]
  have h2 : (updateFirst oid (ord.update_status "Cancelled") history).find?
      (fun o => o.order_id == oid) = some (ord.update_status "Cancelled") :=
    find?_updateFirst_self history oid ord _ hfind (by simp [Order.update_status])
  have h3 : cancel_order (releaseLoop inv ord.items).1
      (updateFirst oid (ord.update_status "Cancelled") history) oid
      = ⟨false, .orderAlreadyCancelled, (releaseLoop inv ord.items).1,
          updateFirst oid (ord.update_status "Cancelled") history⟩ := by
    unfold cancel_order
    rw [h2]
    simp [Order.update_status]
  rw [h1]
  refine ⟨rfl, rfl, ?_, ?_, ?_, ?_, ?_⟩
  · show (cancel_order (releaseLoop inv ord.items).1
      (updateFirst oid (ord.update_status "Cancelled") history) oid).result = false
    rw [h3]
  · show (cancel_order (releaseLoop inv ord.items).1
      (updateFirst oid (ord.update_status "Cancelled") history) oid).outcome
      = .orderAlreadyCancelled
    rw [h3]
  · show (cancel_order (releaseLoop inv ord.items).1
      (updateFirst oid (ord.update_status "Cancelled") history) oid).inv
      = (releaseLoop inv ord.items).1
    rw [h3]
  · show (cancel_order (releaseLoop inv ord.items).1
      (updateFirst oid (ord.update_status "Cancelled") history) oid).order_history
      = updateFirst oid (ord.update_status "Cancelled") history
    rw [h3]
  · show ((releaseLoop inv ord.items).1).stockOf pid
      = (inv.stockOf pid).map (fun s => s + lineSum pid ord.items)
    exact releaseLoop_stockOf ord.items inv pid

/-- Witness for C5: a placed one-line order cancelled twice. -/
theorem cancel_twice_idempotent_witness :
    (cancel_order [⟨1, 0⟩] [⟨"O1", 1, [(1, 2)], "Paid", some "P"⟩] "O1").result = true
    ∧ (cancel_order [⟨1, 0⟩] [⟨"O1", 1, [(1, 2)], "Paid", some "P"⟩] "O1").outcome
        = .success
    ∧ (cancel_order
        (cancel_order [⟨1, 0⟩] [⟨"O1", 1, [(1, 2)], "Paid", some "P"⟩] "O1").inv
        (cancel_order [⟨1, 0⟩] [⟨"O1", 1, [(1, 2)], "Paid", some "P"⟩]
          "O1").order_history "O1").result = false
    ∧ (cancel_order
        (cancel_order [⟨1, 0⟩] [⟨"O1", 1, [(1, 2)], "Paid", some "P"⟩] "O1").inv
        (cancel_order [⟨1, 0⟩] [⟨"O1", 1, [(1, 2)], "Paid", some "P"⟩]
          "O1").order_history "O1").outcome = .orderAlreadyCancelled
    ∧ (cancel_order
        (cancel_order [⟨1, 0⟩] [⟨"O1", 1, [(1, 2)], "Paid", some "P"⟩] "O1").inv
        (cancel_order [⟨1, 0⟩] [⟨"O1", 1, [(1, 2)], "Paid", some "P"⟩]
          "O1").order_history "O1").inv
        = (cancel_order [⟨1, 0⟩] [⟨"O1", 1, [(1, 2)], "Paid", some "P"⟩] "O1").inv
    ∧ (cancel_order
        (cancel_order [⟨1, 0⟩] [⟨"O1", 1, [(1, 2)], "Paid", some "P"⟩] "O1").inv
        (cancel_order [⟨1, 0⟩] [⟨"O1", 1, [(1, 2)], "Paid", some "P"⟩]
          "O1").order_history "O1").order_history
        = (cancel_order [⟨1, 0⟩] [⟨"O1", 1, [(1, 2)], "Paid", some "P"⟩]
            "O1").order_history
    ∧ (cancel_order [⟨1, 0⟩] [⟨"O1", 1, [(1, 2)], "Paid", some "P"⟩] "O1").inv.stockOf 1
        = (Inventory.stockOf [⟨1, 0⟩] 1).map
            (fun s => s + lineSum 1 (⟨"O1", 1, [(1, 2)], "Paid", some "P"⟩ : Order).items) :=
  cancel_twice_idempotent [⟨1, 0⟩] [⟨"O1", 1, [(1, 2)], "Paid", some "P"⟩]
    "O1" ⟨"O1", 1, [(1, 2)], "Paid", some "P"⟩ 1 (by decide) (by decide)

/-- C1: a failed `submit_order` on a non-empty cart — out of stock at some
line or a declined/invalid payment after all lines reserved — leaves every
product's reported available stock exactly as it was before the attempt. -/
theorem submit_failure_restores_stock (inv : Inventory) (user_id : Nat)
    (order_history : List Order) (cart : Cart) (payment_info : List String)
    (approves : Bool) (payment_id : String) (pid : Nat)
    (hne : cart.items ≠ [])
    (hfail : (submit_order inv user_id order_history cart payment_info approves
        payment_id).result = none) :
    (submit_order inv user_id order_history cart payment_info approves
        payment_id).inv.stockOf pid = inv.stockOf pid := by
  have hemp : cart.items.isEmpty = false := by
    cases hc : cart.items with
    | nil => exact absurd hc hne
    | cons a l => rfl
  simp only [submit_order, hemp, Bool.false_eq_true, if_false] at hfail ⊢
  cases hok : (reserveLoop inv cart.items).ok with
  | false =>
    simp only [hok, Bool.false_eq_true, if_false] at hfail ⊢
    exact rollback_restores inv cart.items pid
  | true =>
    simp only [hok, if_true] at hfail ⊢
    cases hpp : process_payment approves payment_info payment_id with
    | ok ref => simp [hpp] at hfail
    | error e =>
      simp only [hpp]
      exact rollback_restores inv cart.items pid

/-- Witness for C1: product 2 is absent, so the second line raises
`OutOfStock` after line 1 reserved; the stock of product 1 is restored. -/
theorem submit_failure_restores_stock_witness :
    ((⟨7, [(1, 3), (2, 1)]⟩ : Cart).items ≠ [])
    ∧ (submit_order [⟨1, 5⟩] 7 [] ⟨7, [(1, 3), (2, 1)]⟩
        ["method", "card_number", "cvv"] true "PAY-1").result = none
    ∧ (submit_order [⟨1, 5⟩] 7 [] ⟨7, [(1, 3), (2, 1)]⟩
        ["method", "card_number", "cvv"] true "PAY-1").inv.stockOf 1
        = Inventory.stockOf [⟨1, 5⟩] 1 :=
  ⟨by decide, by decide,
    submit_failure_restores_stock [⟨1, 5⟩] 7 [] ⟨7, [(1, 3), (2, 1)]⟩
      ["method", "card_number", "cvv"] true "PAY-1" 1 (by decide) (by decide)⟩

/-- C3 is refuted on the ordering part: with lines 1 and 2 reserved and
line 3 failing, the rollback releases `(1,2)` before `(2,1)` — the order
of acquisition, not its reverse. -/
theorem submit_release_reverse_order_counterexample :
    okReservesOf (submit_order [⟨1, 5⟩, ⟨2, 5⟩] 7 [] ⟨7, [(1, 2), (2, 1), (3, 1)]⟩
        ["method", "card_number", "cvv"] true "PAY-1").events = [(1, 2), (2, 1)]
    ∧ releasesOf (submit_order [⟨1, 5⟩, ⟨2, 5⟩] 7 [] ⟨7, [(1, 2), (2, 1), (3, 1)]⟩
        ["method", "card_number", "cvv"] true "PAY-1").events = [(1, 2), (2, 1)]
    ∧ releasesOf (submit_order [⟨1, 5⟩, ⟨2, 5⟩] 7 [] ⟨7, [(1, 2), (2, 1), (3, 1)]⟩
        ["method", "card_number", "cvv"] true "PAY-1").events
      ≠ List.reverse (okReservesOf (submit_order [⟨1, 5⟩, ⟨2, 5⟩] 7 []
          ⟨7, [(1, 2), (2, 1), (3, 1)]⟩
          ["method", "card_number", "cvv"] true "PAY-1").events) := by
  refine ⟨by decide, by decide, by decide⟩

/-- C3 amended: when a reservation fails partway through `submit_order`,
every line reserved during the attempt is released exactly once, in the
order of acquisition (not its reverse), and the payment gateway is never
invoked for that attempt. -/
theorem submit_outOfStock_compensation (inv : Inventory) (user_id : Nat)
    (order_history : List Order) (cart : Cart) (payment_info : List String)
    (approves : Bool) (payment_id : String)
    (hoos : (submit_order inv user_id order_history cart payment_info approves
        payment_id).outcome = .outOfStock) :
    releasesOf (submit_order inv user_id order_history cart payment_info approves
        payment_id).events
      = okReservesOf (submit_order inv user_id order_history cart payment_info
          approves payment_id).events
    ∧ Event.paymentAttempt ∉ (submit_order inv user_id order_history cart
        payment_info approves payment_id).events := by
  cases hemp : cart.items.isEmpty with
  | true => simp [submit_order, hemp] at hoos
  | false =>
    simp only [submit_order, hemp, Bool.false_eq_true, if_false] at hoos ⊢
    cases hok : (reserveLoop inv cart.items).ok with
    | true =>
      simp only [hok, if_true] at hoos
      cases hpp : process_payment approves payment_info payment_id with
      | ok ref => simp [hpp] at hoos
      | error e => simp [hpp] at hoos
    | false =>
      simp only [hok, Bool.false_eq_true, if_false] at hoos ⊢
      constructor
      · rw [releasesOf_append, okReservesOf_append,
          reserveLoop_events_releases, reserveLoop_events_okReserves,
          releaseLoop_events_releases, releaseLoop_events_okReserves]
        simp
      · intro hmem
        rw [List.mem_append] at hmem
        cases hmem with
        | inl hm => exact reserveLoop_events_no_payment cart.items inv hm
        | inr hm => exact releaseLoop_events_no_payment _ _ hm

/-- Witness for C3 amended, at the counterexample's own input. -/
theorem submit_outOfStock_compensation_witness :
    (submit_order [⟨1, 5⟩, ⟨2, 5⟩] 7 [] ⟨7, [(1, 2), (2, 1), (3, 1)]⟩
        ["method", "card_number", "cvv"] true "PAY-1").outcome = .outOfStock
    ∧ (releasesOf (submit_order [⟨1, 5⟩, ⟨2, 5⟩] 7 []
          ⟨7, [(1, 2), (2, 1), (3, 1)]⟩
          ["method", "card_number", "cvv"] true "PAY-1").events
        = okReservesOf (submit_order [⟨1, 5⟩, ⟨2, 5⟩] 7 []
            ⟨7, [(1, 2), (2, 1), (3, 1)]⟩
            ["method", "card_number", "cvv"] true "PAY-1").events
      ∧ Event.paymentAttempt ∉ (submit_order [⟨1, 5⟩, ⟨2, 5⟩] 7 []
          ⟨7, [(1, 2), (2, 1), (3, 1)]⟩
          ["method", "card_number", "cvv"] true "PAY-1").events) :=
  ⟨by decide,
    submit_outOfStock_compensation [⟨1, 5⟩, ⟨2, 5⟩] 7 []
      ⟨7, [(1, 2), (2, 1), (3, 1)]⟩
      ["method", "card_number", "cvv"] true "PAY-1" (by decide)⟩

/-- C4 is refuted on the status part: the committed order's status is
`"Paid"`, not `"Placed"` (the `from_cart` default `"Placed"` is overwritten
before the order is stored). -/
theorem submit_status_placed_counterexample :
    ((submit_order [⟨1, 5⟩] 7 [] ⟨7, [(1, 2)]⟩ ["method", "card_number", "cvv"]
        true "PAY-1").result).map Order.status = some "Paid"
    ∧ ("Paid" : String) ≠ "Placed" :=
  ⟨rfl, by decide⟩

/-- C4 amended: whenever the cart is non-empty, every line reserves and
the payment (valid info, gateway approval) succeeds, `submit_order`
constructs, stores and returns an order carrying the returned payment
reference — with status `"Paid"` rather than the spec's `"Placed"`. -/
theorem submit_success_commit (inv : Inventory) (user_id : Nat)
    (order_history : List Order) (cart : Cart) (payment_info : List String)
    (payment_id : String)
    (hne : cart.items ≠ [])
    (hok : (reserveLoop inv cart.items).ok = true)
    (hval : validate_payment_info payment_info = true) :
    ∃ order,
      (submit_order inv user_id order_history cart payment_info true
          payment_id).result = some order
      ∧ order.status = "Paid"
      ∧ order.payment_ref = some payment_id
      ∧ (submit_order inv user_id order_history cart payment_info true
          payment_id).order_history = order_history ++ [order] := by
  have hemp : cart.items.isEmpty = false := by
    cases hc : cart.items with
    | nil => exact absurd hc hne
    | cons a l => rfl
  have hpp : process_payment true payment_info payment_id = .ok payment_id := by
    unfold process_payment
    rw [hval]
    rfl
  simp only [submit_order, hemp, Bool.false_eq_true, if_false, hok, if_true, hpp]
  exact ⟨_, rfl, rfl, rfl, rfl⟩

/-- Witness for C4 amended: one reservable line, approving gateway. -/
theorem submit_success_commit_witness :
    ((⟨7, [(1, 2)]⟩ : Cart).items ≠ [])
    ∧ (reserveLoop [⟨1, 5⟩] (⟨7, [(1, 2)]⟩ : Cart).items).ok = true
    ∧ validate_payment_info ["method", "card_number", "cvv"] = true
    ∧ ∃ order,
        (submit_order [⟨1, 5⟩] 7 [] ⟨7, [(1, 2)]⟩ ["method", "card_number", "cvv"]
            true "PAY-9").result = some order
        ∧ order.status = "Paid"
        ∧ order.payment_ref = some "PAY-9"
        ∧ (submit_order [⟨1, 5⟩] 7 [] ⟨7, [(1, 2)]⟩ ["method", "card_number", "cvv"]
            true "PAY-9").order_history = [] ++ [order] :=
  ⟨by decide, by decide, by decide,
    submit_success_commit [⟨1, 5⟩] 7 [] ⟨7, [(1, 2)]⟩
      ["method", "card_number", "cvv"] "PAY-9" (by decide) (by decide) (by decide)⟩

/-- C6 is refuted: `submit_order` returns `None` for an out-of-stock cart
and for an empty cart alike, and `cancel_order` returns `False` for a
missing order and for an already-cancelled order alike — the returned
values are equal while the failure kinds differ, so the caller cannot tell
the kinds apart from the returned value alone. -/
theorem failure_kinds_indistinguishable_counterexample :
    (submit_order [⟨1, 0⟩] 7 [] ⟨7, [(1, 1)]⟩ ["method", "card_number", "cvv"]
        true "PAY-1").outcome = .outOfStock
    ∧ (submit_order [⟨1, 0⟩] 7 [] ⟨7, []⟩ ["method", "card_number", "cvv"]
        true "PAY-1").outcome = .emptyCart
    ∧ (submit_order [⟨1, 0⟩] 7 [] ⟨7, [(1, 1)]⟩ ["method", "card_number", "cvv"]
        true "PAY-1").result
      = (submit_order [⟨1, 0⟩] 7 [] ⟨7, []⟩ ["method", "card_number", "cvv"]
          true "PAY-1").result
    ∧ (cancel_order [] [] "X").outcome = .orderNotFound
    ∧ (cancel_order [] [⟨"C1", 7, [(1, 1)], "Cancelled", some "P"⟩] "C1").outcome
        = .orderAlreadyCancelled
    ∧ (cancel_order [] [] "X").result
        = (cancel_order [] [⟨"C1", 7, [(1, 1)], "Cancelled", some "P"⟩] "C1").result := by
  refine ⟨by decide, rfl, by decide, rfl, by decide, by decide⟩

/-- C6 amended: the returned value distinguishes success from failure —
`submit_order` returns an order exactly on the success path and `None` for
every failure kind, `cancel_order` returns `True` exactly on the success
path and `False` for both failure kinds — but not which failure occurred
(that is recorded only in logs). -/
theorem result_encodes_success_only (inv : Inventory) (user_id : Nat)
    (order_history : List Order) (cart : Cart) (payment_info : List String)
    (approves : Bool) (payment_id : String) (inv₂ : Inventory)
    (history₂ : List Order) (oid : String) :
    ((submit_order inv user_id order_history cart payment_info approves
        payment_id).outcome = .placed
      ↔ (submit_order inv user_id order_history cart payment_info approves
          payment_id).result ≠ none)
    ∧ ((cancel_order inv₂ history₂ oid).outcome = .success
      ↔ (cancel_order inv₂ history₂ oid).result = true) := by
  constructor
  · simp only [submit_order]
    split
    · simp
    · split
      · split
        · simp
        · simp
      · simp
  · simp only [cancel_order]
    split
    · simp
    · split
      · simp
      · simp

/-- C7 is refuted: `submit_order` performs no positive-quantity check. A
cart holding the line `(1, -2)` sails through reservation (the reserve
call is made and even *adds* 2 units) and, with payment approved, is
committed. -/
theorem submit_nonpositive_line_counterexample :
    Event.reserveOk 1 (-2) ∈ (submit_order [⟨1, 5⟩] 7 [] ⟨7, [(1, -2)]⟩
        ["method", "card_number", "cvv"] true "PAY-1").events
    ∧ (submit_order [⟨1, 5⟩] 7 [] ⟨7, [(1, -2)]⟩
        ["method", "card_number", "cvv"] true "PAY-1").inv.stockOf 1 = some 7
    ∧ Inventory.stockOf [⟨1, 5⟩] 1 = some 5 := by
  refine ⟨by decide, by decide, by decide⟩

/-- C7 amended: the rejection of zero/negative quantities happens in the
cart model, not in `submit_order`: `Cart.add_item` never stores a
non-positive line (it drops or deletes them), so carts built through the
cart API satisfy the positivity precondition; a cart constructed directly
with a non-positive line is processed by `submit_order` without any
rejection (see the counterexample). -/
theorem add_item_lines_positive (c : Cart) (pid : Nat) (quantity : Int)
    (h : ∀ l ∈ c.items, 0 < l.2) :
    ∀ l ∈ (c.add_item pid quantity).items, 0 < l.2 := by
  cases hfind : c.items.find? (fun l => l.1 == pid) with
  | none =>
    by_cases hq : quantity > 0
    · have he : (c.add_item pid quantity).items = c.items ++ [(pid, quantity)] := by
        unfold Cart.add_item
        rw [hfind]
        simp [hq]
      rw [he]
      intro l hl
      rw [List.mem_append] at hl
      rcases hl with h1 | h2
      · exact h l h1
      · rw [List.mem_singleton] at h2
        subst h2
        simpa using hq
    · have he : (c.add_item pid quantity).items = c.items := by
        unfold Cart.add_item
        rw [hfind]
        simp [hq]
      rw [he]
      exact h
  | some l₀ =>
    by_cases hle : l₀.2 + quantity ≤ 0
    · have he : (c.add_item pid quantity).items
          = c.items.filter (fun l => !(l.1 == pid)) := by
        unfold Cart.add_item
        rw [hfind]
        simp [hle]
      rw [he]
      intro l hl
      rw [List.mem_filter] at hl
      exact h l hl.1
    · have he : (c.add_item pid quantity).items
          = c.items.map (fun l => if l.1 == pid then (pid, l₀.2 + quantity) else l) := by
        unfold Cart.add_item
        rw [hfind]
        simp [hle]
      rw [he]
      intro l hl
      rw [List.mem_map] at hl
      obtain ⟨l', hl', hmap⟩ := hl
      by_cases hc : (l'.1 == pid) = true
      · rw [← hmap, if_pos hc]
        show 0 < l₀.2 + quantity
        omega
      · rw [← hmap, if_neg hc]
        exact h l' hl'

/-- Witness for C7 amended: adding a fresh positive line keeps all lines
positive. -/
theorem add_item_lines_positive_witness :
    (∀ l ∈ ((⟨7, [(1, 2)]⟩ : Cart)).items, 0 < l.2)
    ∧ (∀ l ∈ ((⟨7, [(1, 2)]⟩ : Cart).add_item 2 3).items, 0 < l.2) :=
  ⟨by decide, add_item_lines_positive ⟨7, [(1, 2)]⟩ 2 3 (by decide)⟩

end ECommerce
